import Mathlib

/-!
Verification development for the sprite-lab generator repository.

The definitions below are a shallow embedding of the image-processing
pipeline in `src/app/api/sprite/generate/route.ts` (the `smartSlice`
content-island slicer together with its revision of the `POST` handler and
the `atlasDataGenerator` metadata emitter).  Bitmaps are modelled as a
width, a height and a pixel function; the flat RGBA byte buffer that the
TypeScript code scans (`data[(y * width + x) * 4 + 3]` for the alpha of
pixel `(x, y)`) corresponds to reading the `.a` field of `pix x y`.
External image primitives from the `sharp` library (extract, resize,
composite) are modelled by their documented pixel semantics; the claims
settled here depend only on the dimensions and transparency behaviour of
those primitives, not on resampling details.
-/

namespace SpriteLab

/-- One pixel: red, green, blue, alpha channels, 8 bits each in the code. -/
structure RGBA where
  r : Nat
  g : Nat
  b : Nat
  a : Nat
deriving DecidableEq

/-- The fully transparent pixel, `{ r: 0, g: 0, b: 0, alpha: 0 }` in the code. -/
def RGBA.clear : RGBA := ⟨0, 0, 0, 0⟩

/-- A bitmap: dimensions plus a pixel function.  Models the raw RGBA buffer
`sharp(...).ensureAlpha().raw()` hands to `smartSlice`. -/
structure Bitmap where
  width : Nat
  height : Nat
  pix : Nat → Nat → RGBA

/-- An axis-aligned content box `{x, y, w, h}` in source coordinates.  The
TypeScript interface stores JavaScript numbers; integer coordinates model
the values the detector actually produces. -/
structure BoundingBox where
  x : Int
  y : Int
  w : Int
  h : Int
deriving DecidableEq

/-- Row projection: `rowHasContent[y]` is set when some pixel in row `y`
has alpha above the content threshold 10. -/
def rowHasContent (bm : Bitmap) (y : Nat) : Bool :=
  (List.range bm.width).any fun x => 10 < (bm.pix x y).a

/-- Column projection inside one vertical strip `[stripStart, stripEnd)`:
`colHasContent[x]` is set when some pixel of column `x` within the strip
has alpha above the threshold 10. -/
def colHasContent (bm : Bitmap) (stripStart stripEnd : Nat) (x : Nat) : Bool :=
  (List.range' stripStart (stripEnd - stripStart)).any fun y => 10 < (bm.pix x y).a

/-- One step of the run-grouping loop of `smartSlice`.  The state is the
list of runs already emitted plus the start of the run currently open (if
any); a run `(start, stop)` is emitted when content stops at `stop` and
`stop - start > m` (the code uses `m = 5` for both rows and columns). -/
def runsStep (has : Nat → Bool) (m : Nat) :
    List (Nat × Nat) × Option Nat → Nat → List (Nat × Nat) × Option Nat
  | (acc, none), y => if has y then (acc, some y) else (acc, none)
  | (acc, some s), y =>
    if has y then (acc, some s)
    else if m < y - s then (acc ++ [(s, y)], none) else (acc, none)

/-- The full run-grouping loop over positions `0, ..., len - 1`, including
the trailing flush `if (inStrip && len - start > m) push (start, len)`. -/
def collectRuns (has : Nat → Bool) (len m : Nat) : List (Nat × Nat) :=
  match (List.range len).foldl (runsStep has m) ([], none) with
  | (acc, some s) => if m < len - s then acc ++ [(s, len)] else acc
  | (acc, none) => acc

/-- The row strips of `smartSlice`: content runs over rows, kept when
strictly taller than 5 pixels. -/
def rowStrips (bm : Bitmap) : List (Nat × Nat) :=
  collectRuns (rowHasContent bm) bm.height 5

/-- The boxes detected inside one row strip: column content runs, kept when
strictly wider than 5 pixels, each spanning the full strip height. -/
def stripBoxes (bm : Bitmap) (strip : Nat × Nat) : List BoundingBox :=
  (collectRuns (colHasContent bm strip.1 strip.2) bm.width 5).map fun r =>
    { x := (r.1 : Int), y := (strip.1 : Int),
      w := ((r.2 - r.1 : Nat) : Int), h := ((strip.2 - strip.1 : Nat) : Int) }

/-- All detected sprites, strip by strip, in scan order. -/
def detectedSprites (bm : Bitmap) : List BoundingBox :=
  (rowStrips bm).flatMap (stripBoxes bm)

/-- The sort comparator of `smartSlice`.  Vertical centers are `y + h / 2`;
to stay in the integers both sides are scaled by 2, so the test
`|centerA - centerB| < 24` becomes `|(2 a.y + a.h) - (2 b.y + b.h)| < 48`.
When the centers are close the boxes compare by `x`, otherwise by `y`. -/
def cmpBoxes (a b : BoundingBox) : Int :=
  if ((2 * a.y + a.h) - (2 * b.y + b.h)).natAbs < 48 then a.x - b.x else a.y - b.y

/-- Boolean order derived from the comparator: `a` may precede `b` when the
comparator does not demand the opposite order. -/
def spriteLE (a b : BoundingBox) : Bool := cmpBoxes a b ≤ 0

/-- Stable insertion of an element into a sorted list. -/
def insertLE {α : Type} (le : α → α → Bool) (a : α) : List α → List α
  | [] => [a]
  | b :: l => if le a b then a :: b :: l else b :: insertLE le a l

/-- Stable sort by a boolean order; models the stable comparator sort that
`Array.prototype.sort` performs on the detected boxes. -/
def sortByLE {α : Type} (le : α → α → Bool) : List α → List α
  | [] => []
  | a :: l => insertLE le a (sortByLE le l)

/-- The detected sprites in row-major order, as sorted by `smartSlice`. -/
def sortedSprites (bm : Bitmap) : List BoundingBox :=
  sortByLE spriteLE (detectedSprites bm)

/-- The reusable blank frame: a 24 by 24 bitmap whose every pixel is
`{ r: 0, g: 0, b: 0, alpha: 0 }`. -/
def blank : Bitmap :=
  { width := 24, height := 24, pix := fun _ _ => RGBA.clear }

/-- Clamped extract origin, `Math.max(0, box.x)` in `processSprite`. -/
def safeX (box : BoundingBox) : Int := max 0 box.x

/-- Clamped extract origin, `Math.max(0, box.y)` in `processSprite`. -/
def safeY (box : BoundingBox) : Int := max 0 box.y

/-- Clamped extract width, `Math.min(width - safeX, box.w)`. -/
def safeW (bm : Bitmap) (box : BoundingBox) : Int :=
  min ((bm.width : Int) - safeX box) box.w

/-- Clamped extract height, `Math.min(height - safeY, box.h)`. -/
def safeH (bm : Bitmap) (box : BoundingBox) : Int :=
  min ((bm.height : Int) - safeY box) box.h

/-- Region extraction: the pixel semantics of the external
`extract({left, top, width, height})` primitive. -/
def extract (bm : Bitmap) (left top w h : Nat) : Bitmap :=
  { width := w, height := h, pix := fun x y => bm.pix (left + x) (top + y) }

/-- Scaled dimensions of a contain fit into 24 by 24: the longer side
becomes 24 and the other side shrinks in proportion. -/
def containDims (w h : Nat) : Nat × Nat :=
  if h ≤ w then (24, max 1 (h * 24 / w)) else (max 1 (w * 24 / h), 24)

/-- Pixel semantics of the external contain-fit nearest-neighbour resize to
24 by 24 with a fully transparent background: the scaled image is centred
and the remainder is transparent padding.  The claims settled below depend
only on the output dimensions being 24 by 24. -/
def resize24 (bm : Bitmap) : Bitmap :=
  let tw := (containDims bm.width bm.height).1
  let th := (containDims bm.width bm.height).2
  let offx := (24 - tw) / 2
  let offy := (24 - th) / 2
  { width := 24, height := 24,
    pix := fun x y =>
      if offx ≤ x ∧ x < offx + tw ∧ offy ≤ y ∧ y < offy + th then
        bm.pix ((x - offx) * bm.width / tw) ((y - offy) * bm.height / th)
      else RGBA.clear }

/-- The `processSprite` helper: clamp the box, extract the region and
contain-fit it into a 24 by 24 frame.  A degenerate clamped region makes
the external extract throw; the surrounding try/catch then returns the
blank frame, modelled by the nonpositive-size branch. -/
def processSprite (bm : Bitmap) (box : BoundingBox) : Bitmap :=
  if 0 < safeW bm box ∧ 0 < safeH bm box then
    resize24 (extract bm (safeX box).toNat (safeY box).toNat
      (safeW bm box).toNat (safeH bm box).toNat)
  else blank

/-- Which sorted sprite feeds destination slot `slot`: the idle loop copies
`detected[i]` into `dest[i]` for `i < 4`, the walk loop copies
`detected[walkStartIndexStr + i]` with `walkStartIndexStr = 5` into
`dest[4 + i]` for `i < 6`, and slots 10 to 23 are filled with the blank. -/
def destSourceIdx (slot : Nat) : Option Nat :=
  if slot < 4 then some slot
  else if slot < 10 then some (5 + (slot - 4))
  else none

/-- The frame placed in destination slot `slot`: the processed source
sprite when the slot has one, the blank frame otherwise (both when the slot
is a padding slot and when too few sprites were detected). -/
def destFrame (bm : Bitmap) (slot : Nat) : Bitmap :=
  match destSourceIdx slot with
  | some i =>
    match (sortedSprites bm).get? i with
    | some box => processSprite bm box
    | none => blank
  | none => blank

/-- The `destFrames` array of `smartSlice`, all 24 slots in order. -/
def destFramesList (bm : Bitmap) : List Bitmap :=
  (List.range 24).map (destFrame bm)

/-- The final composited strip: a 576 by 24 canvas with transparent
background on which slot `i` is pasted at horizontal offset `i * 24`.  The
pasted regions do not overlap and the background is fully transparent, so
the pixel at `(x, y)` is the pixel `(x % 24, y)` of frame `x / 24`. -/
def smartSliceOutput (bm : Bitmap) : Bitmap :=
  { width := 576, height := 24,
    pix := fun x y =>
      if x < 576 ∧ y < 24 then (destFrame bm (x / 24)).pix (x % 24) y
      else RGBA.clear }

/-- The transparency probe `hasAnyTransparency`: true when some pixel has
alpha below 255. -/
def hasAnyTransparency (bm : Bitmap) : Bool :=
  (List.range bm.height).any fun y =>
    (List.range bm.width).any fun x => (bm.pix x y).a < 255

/-- The retry loop of the `POST` handler: two generation attempts are
checked for transparency and the first transparent one wins; when both are
fully opaque a final attempt is made and used without any check
(`if (!raw) raw = await openaiGenerateImage(...)`).  `gen i` is the bitmap
returned by the i-th call to the external generator. -/
def retryWithFallback (gen : Nat → Bitmap) : Bitmap :=
  if hasAnyTransparency (gen 0) then gen 0
  else if hasAnyTransparency (gen 1) then gen 1
  else gen 2

/-- How many calls the handler makes to the external generator once the
prompt check has passed: the loop stops at the first transparent attempt,
and the opaque-opaque case adds the unchecked fallback call. -/
def attemptsMade (gen : Nat → Bitmap) : Nat :=
  if hasAnyTransparency (gen 0) then 1
  else if hasAnyTransparency (gen 1) then 2
  else 3

/-- Pixel semantics of the external fill resize to 128 by 128 used by the
concept branch. -/
def resizeTo128 (bm : Bitmap) : Bitmap :=
  { width := 128, height := 128,
    pix := fun x y => bm.pix (x * bm.width / 128) (y * bm.height / 128) }

/-- JavaScript falsiness of the request prompt: absent or empty. -/
def promptMissing : Option String → Bool
  | none => true
  | some s => s.isEmpty

/-- The mode defaulting of the handler:
`mode === "concept" ? "concept" : "sheet"`. -/
def modeVal (mode : Option String) : String :=
  if mode = some "concept" then "concept" else "sheet"

/-- An HTTP response of the handler, reduced to the fields the claims are
about. -/
structure ApiResponse where
  status : Nat
  error : Option String
  mode : Option String
  png : Option Bitmap

/-- The `POST` handler: the missing-prompt check runs before any call to
the external generator, then the retry loop produces the working bitmap and
the mode selects the concept preview or the sliced sheet.  The second
component counts the calls made to the external generator. -/
def POSThandler (prompt mode : Option String) (gen : Nat → Bitmap) :
    ApiResponse × Nat :=
  if promptMissing prompt then
    ({ status := 400, error := some "Missing prompt", mode := none, png := none }, 0)
  else
    let raw := retryWithFallback gen
    if modeVal mode = "concept" then
      ({ status := 200, error := none, mode := some "concept",
         png := some (resizeTo128 raw) }, attemptsMade gen)
    else
      ({ status := 200, error := none, mode := some "sheet",
         png := some (smartSliceOutput raw) }, attemptsMade gen)

/-- A pixel rectangle of the atlas metadata. -/
structure Rect where
  x : Nat
  y : Nat
  w : Nat
  h : Nat
deriving DecidableEq

/-- One frame entry of the atlas metadata. -/
structure FrameEntry where
  frame : Rect
  sourceSize : Nat × Nat
  spriteSourceSize : Rect
deriving DecidableEq

/-- The atlas descriptor: the keyed frame entries in column order, the meta
size and the two named animation sequences. -/
structure Atlas where
  frames : List (String × FrameEntry)
  metaSize : Nat × Nat
  animWalk : List String
  animIdle : List String
deriving DecidableEq

/-- The key of column `col` for character `name`, the template
string a backtick-quoted `col_name` in the code. -/
def frameKey (col : Nat) (name : String) : String :=
  toString col ++ "_" ++ name

/-- The `atlasDataGenerator` function: 24 frame entries keyed
`col_name`, each a 24 by 24 rectangle at `x = col * 24`, plus the fixed
idle (slots 0 to 3) and walk (slots 4 to 9) animation name lists. -/
def atlasDataGenerator (name : String) : Atlas :=
  { frames := (List.range 24).map fun col =>
      (frameKey col name,
       { frame := { x := col * 24, y := 0, w := 24, h := 24 },
         sourceSize := (24, 24),
         spriteSourceSize := { x := 0, y := 0, w := 24, h := 24 } }),
    metaSize := (576, 24),
    animWalk := [frameKey 4 name, frameKey 5 name, frameKey 6 name,
                 frameKey 7 name, frameKey 8 name, frameKey 9 name],
    animIdle := [frameKey 0 name, frameKey 1 name, frameKey 2 name,
                 frameKey 3 name] }

/-- A fully opaque 8 by 8 test bitmap. -/
def bmFull : Bitmap := ⟨8, 8, fun _ _ => ⟨0, 0, 0, 255⟩⟩

/-- A fully transparent 4 by 4 test bitmap. -/
def bmClear : Bitmap := ⟨4, 4, fun _ _ => RGBA.clear⟩

/-- An 8 by 8 test bitmap whose top `n` rows are opaque and whose other
rows are transparent: one row content run of exactly `n` pixels. -/
def bmRow (n : Nat) : Bitmap :=
  ⟨8, 8, fun _ y => if y < n then ⟨0, 0, 0, 255⟩ else RGBA.clear⟩

/-- An 8 by 8 test bitmap whose left `n` columns are opaque and whose other
columns are transparent: one column content run of exactly `n` pixels. -/
def bmCol (n : Nat) : Bitmap :=
  ⟨8, 8, fun x _ => if x < n then ⟨0, 0, 0, 255⟩ else RGBA.clear⟩

end SpriteLab

namespace SpriteLab

/-! ### Invariants of the run-grouping loop -/

theorem runsStep_foldl_bound (has : Nat → Bool) (m N : Nat) :
    ∀ (ys : List Nat) (acc : List (Nat × Nat)) (st : Option Nat),
      (∀ y ∈ ys, y ≤ N) →
      (∀ p ∈ acc, m < p.2 - p.1 ∧ p.2 ≤ N) →
      ∀ p ∈ (ys.foldl (runsStep has m) (acc, st)).1, m < p.2 - p.1 ∧ p.2 ≤ N := by
  intro ys
  induction ys with
  | nil => intro acc st _ hacc p hp; exact hacc p hp
  | cons y ys ih =>
    intro acc st hys hacc p hp
    have hyN : y ≤ N := hys y (List.mem_cons_self y ys)
    have hys2 : ∀ z ∈ ys, z ≤ N := fun z hz => hys z (List.mem_cons_of_mem y hz)
    rw [List.foldl_cons] at hp
    cases st with
    | none =>
      cases hhy : has y with
      | true =>
        simp only [runsStep, hhy, if_true] at hp
        exact ih acc (some y) hys2 hacc p hp
      | false =>
        simp only [runsStep, hhy, if_false] at hp
        exact ih acc none hys2 hacc p hp
    | some s =>
      cases hhy : has y with
      | true =>
        simp only [runsStep, hhy, if_true] at hp
        exact ih acc (some s) hys2 hacc p hp
      | false =>
        by_cases hpush : m < y - s
        · simp only [runsStep, hhy, if_false, if_pos hpush] at hp
          refine ih (acc ++ [(s, y)]) none hys2 ?_ p hp
          intro q hq
          rcases List.mem_append.mp hq with hq | hq
          · exact hacc q hq
          · have : q = (s, y) := by simpa using hq
            subst this
            exact ⟨hpush, hyN⟩
        · simp only [runsStep, hhy, if_false, if_neg hpush] at hp
          exact ih acc none hys2 hacc p hp

theorem collectRuns_bound (has : Nat → Bool) (len m : Nat) :
    ∀ p ∈ collectRuns has len m, m < p.2 - p.1 ∧ p.2 ≤ len := by
  intro p hp
  have hinv := runsStep_foldl_bound has m len (List.range len) [] none
    (fun y hy => Nat.le_of_lt (List.mem_range.mp hy)) (by simp)
  unfold collectRuns at hp
  rcases hfold : (List.range len).foldl (runsStep has m) ([], none) with ⟨acc, st⟩
  rw [hfold] at hp hinv
  cases st with
  | none => exact hinv p hp
  | some s =>
    by_cases hls : m < len - s
    · simp only [if_pos hls] at hp
      rcases List.mem_append.mp hp with h | h
      · exact hinv p h
      · have : p = (s, len) := by simpa using h
        subst this
        exact ⟨hls, le_refl len⟩
    · simp only [if_neg hls] at hp
      exact hinv p hp

/-! ### In-bounds boxes and the clamp of processSprite -/

theorem processSprite_of_inBounds (bm : Bitmap) (box : BoundingBox)
    (h1 : 0 < box.w) (h2 : 0 < box.h) (h3 : 0 ≤ box.x) (h4 : 0 ≤ box.y)
    (h5 : box.x + box.w ≤ (bm.width : Int)) (h6 : box.y + box.h ≤ (bm.height : Int)) :
    safeX box = box.x ∧ safeY box = box.y ∧
    safeW bm box = box.w ∧ safeH bm box = box.h ∧
    processSprite bm box =
      resize24 (extract bm box.x.toNat box.y.toNat box.w.toNat box.h.toNat) := by
  have hx : safeX box = box.x := by simp only [safeX]; omega
  have hy : safeY box = box.y := by simp only [safeY]; omega
  have hw : safeW bm box = box.w := by simp only [safeW, safeX]; omega
  have hh : safeH bm box = box.h := by simp only [safeH, safeY]; omega
  refine ⟨hx, hy, hw, hh, ?_⟩
  simp only [processSprite, hx, hy, hw, hh]
  rw [if_pos ⟨h1, h2⟩]

/-- C6: every bounding box produced by the content-island detector has
positive width and height and lies fully inside the source bitmap; hence
the clamping of the extract region in `processSprite` leaves the box
unchanged, the extraction only reads pixels inside the bitmap, and the
blank-substitution branch is not taken. -/
theorem claim6_boxes_in_bounds (bm : Bitmap) (box : BoundingBox)
    (hb : box ∈ detectedSprites bm) :
    0 < box.w ∧ 0 < box.h ∧ 0 ≤ box.x ∧ 0 ≤ box.y ∧
    box.x + box.w ≤ (bm.width : Int) ∧ box.y + box.h ≤ (bm.height : Int) ∧
    safeX box = box.x ∧ safeY box = box.y ∧
    safeW bm box = box.w ∧ safeH bm box = box.h ∧
    (∀ dx dy : Nat, dx < box.w.toNat → dy < box.h.toNat →
      box.x.toNat + dx < bm.width ∧ box.y.toNat + dy < bm.height) ∧
    processSprite bm box =
      resize24 (extract bm box.x.toNat box.y.toNat box.w.toNat box.h.toNat) := by
  have hcont : 0 < box.w ∧ 0 < box.h ∧ 0 ≤ box.x ∧ 0 ≤ box.y ∧
      box.x + box.w ≤ (bm.width : Int) ∧ box.y + box.h ≤ (bm.height : Int) := by
    rcases List.mem_flatMap.mp hb with ⟨strip, hstrip, hbox⟩
    rcases List.mem_map.mp hbox with ⟨r, hr, hrfl⟩
    obtain ⟨hs1, hs2⟩ := collectRuns_bound (rowHasContent bm) bm.height 5 strip hstrip
    obtain ⟨hc1, hc2⟩ := collectRuns_bound (colHasContent bm strip.1 strip.2) bm.width 5 r hr
    subst hrfl
    dsimp only
    refine ⟨?_, ?_, ?_, ?_, ?_, ?_⟩ <;> omega
  obtain ⟨h1, h2, h3, h4, h5, h6⟩ := hcont
  obtain ⟨hx, hy, hw, hh, hps⟩ := processSprite_of_inBounds bm box h1 h2 h3 h4 h5 h6
  exact ⟨h1, h2, h3, h4, h5, h6, hx, hy, hw, hh,
    fun dx dy hdx hdy => ⟨by omega, by omega⟩, hps⟩

/-- C6 witness: the all-opaque 8 by 8 bitmap yields the box
`{x := 0, y := 0, w := 8, h := 8}`, which is in bounds and unchanged by the
clamp. -/
theorem claim6_boxes_in_bounds_instance :
    (⟨0, 0, 8, 8⟩ : BoundingBox) ∈ detectedSprites bmFull ∧
    safeW bmFull ⟨0, 0, 8, 8⟩ = 8 := by
  refine ⟨by decide, ?_⟩
  exact (claim6_boxes_in_bounds bmFull ⟨0, 0, 8, 8⟩ (by decide)).2.2.2.2.2.2.2.2.1

/-! ### Noise rejection boundary -/

/-- C3 counterexample: the 8 by 8 bitmap whose top five rows are opaque has
a contiguous content run of exactly 5 rows (rows 0 to 4 have content, row 5
does not), yet the detector keeps no strip at all, and the analogous
5-column run also yields no box: a run of exactly 5 pixels is discarded,
not kept. -/
theorem claim3_run_of_five_discarded :
    ((List.range 5).all fun y => rowHasContent (bmRow 5) y) = true ∧
    rowHasContent (bmRow 5) 5 = false ∧
    rowStrips (bmRow 5) = [] ∧
    detectedSprites (bmRow 5) = [] ∧
    detectedSprites (bmCol 5) = [] := by decide

/-- C3 amended: a content run of 4 pixels is discarded and a run of 6 is
kept, but the minimum kept length is 6: every kept run is strictly longer
than 5 pixels, and a run of exactly 5 pixels is discarded as noise. -/
theorem claim3_noise_rejection :
    (∀ (has : Nat → Bool) (len : Nat) (p : Nat × Nat),
      p ∈ collectRuns has len 5 → 6 ≤ p.2 - p.1) ∧
    rowStrips (bmRow 4) = [] ∧ rowStrips (bmRow 6) = [(0, 6)] ∧
    detectedSprites (bmCol 4) = [] ∧
    detectedSprites (bmCol 6) = [⟨0, 0, 6, 8⟩] ∧
    rowStrips (bmRow 5) = [] ∧ detectedSprites (bmCol 5) = [] := by
  refine ⟨?_, by decide, by decide, by decide, by decide, by decide, by decide⟩
  intro has len p hp
  have h := collectRuns_bound has len 5 p hp
  omega

/-- C3 amended witness: the everywhere-true projection over 8 positions
yields the single run `(0, 8)`, which is at least 6 long. -/
theorem claim3_noise_rejection_instance :
    6 ≤ ((0, 8) : Nat × Nat).2 - ((0, 8) : Nat × Nat).1 :=
  claim3_noise_rejection.1 (fun _ => true) 8 (0, 8) (by decide)

/-! ### Row tolerance of the sorter -/

/-- C4: in the sort comparator, two boxes whose vertical centers differ by
exactly 23 pixels (scaled by two: the doubled centers differ by 46) compare
by their x coordinates, that is, they are treated as one visual row ordered
left to right; two boxes whose centers differ by 24 pixels or more (doubled
difference at least 48) compare by their y coordinates, that is, they fall
into different rows ordered top to bottom.  The two-element sorts make the
resulting order explicit. -/
theorem claim4_row_tolerance (a b : BoundingBox) :
    (((2 * a.y + a.h) - (2 * b.y + b.h)).natAbs = 46 →
      cmpBoxes a b = a.x - b.x ∧ cmpBoxes b a = b.x - a.x ∧
      sortByLE spriteLE [a, b] = if a.x ≤ b.x then [a, b] else [b, a]) ∧
    (48 ≤ ((2 * a.y + a.h) - (2 * b.y + b.h)).natAbs →
      cmpBoxes a b = a.y - b.y ∧ cmpBoxes b a = b.y - a.y ∧
      sortByLE spriteLE [a, b] = if a.y ≤ b.y then [a, b] else [b, a]) := by
  constructor
  · intro h
    have h1 : ((2 * a.y + a.h) - (2 * b.y + b.h)).natAbs < 48 := by omega
    have h2 : ((2 * b.y + b.h) - (2 * a.y + a.h)).natAbs < 48 := by omega
    have hab : cmpBoxes a b = a.x - b.x := by rw [cmpBoxes, if_pos h1]
    have hba : cmpBoxes b a = b.x - a.x := by rw [cmpBoxes, if_pos h2]
    refine ⟨hab, hba, ?_⟩
    simp only [sortByLE, insertLE, spriteLE, hab]
    by_cases hx : a.x ≤ b.x
    · rw [if_pos (by simp; omega : (decide (a.x - b.x ≤ 0)) = true), if_pos hx]
    · rw [if_neg (by simp; omega : ¬(decide (a.x - b.x ≤ 0)) = true), if_neg hx]
  · intro h
    have h1 : ¬((2 * a.y + a.h) - (2 * b.y + b.h)).natAbs < 48 := by omega
    have h2 : ¬((2 * b.y + b.h) - (2 * a.y + a.h)).natAbs < 48 := by omega
    have hab : cmpBoxes a b = a.y - b.y := by rw [cmpBoxes, if_neg h1]
    have hba : cmpBoxes b a = b.y - a.y := by rw [cmpBoxes, if_neg h2]
    refine ⟨hab, hba, ?_⟩
    simp only [sortByLE, insertLE, spriteLE, hab]
    by_cases hy : a.y ≤ b.y
    · rw [if_pos (by simp; omega : (decide (a.y - b.y ≤ 0)) = true), if_pos hy]
    · rw [if_neg (by simp; omega : ¬(decide (a.y - b.y ≤ 0)) = true), if_neg hy]

/-- C4 witness: the boxes `{0, 0, 6, 10}` and `{5, 23, 6, 10}` have
vertical centers 5 and 28, which differ by exactly 23, so they compare by
x; raising the second box to `y = 24` makes the centers differ by 24, so
they compare by y. -/
theorem claim4_row_tolerance_instance :
    cmpBoxes ⟨0, 0, 6, 10⟩ ⟨5, 23, 6, 10⟩ = 0 - 5 ∧
    cmpBoxes ⟨0, 0, 6, 10⟩ ⟨5, 24, 6, 10⟩ = 0 - 24 :=
  ⟨((claim4_row_tolerance ⟨0, 0, 6, 10⟩ ⟨5, 23, 6, 10⟩).1 (by decide)).1,
   ((claim4_row_tolerance ⟨0, 0, 6, 10⟩ ⟨5, 24, 6, 10⟩).2 (by decide)).1⟩

/-! ### Graceful degradation -/

/-- C5: a slot whose mapped source index has no detected box receives the
blank frame instead of failing, and on an input with no detected boxes at
all every slot is blank and the composited output is still a fully
transparent 576 by 24 bitmap. -/
theorem claim5_graceful_degradation (bm : Bitmap) :
    (∀ slot i, destSourceIdx slot = some i → (sortedSprites bm).get? i = none →
      destFrame bm slot = blank) ∧
    (detectedSprites bm = [] →
      (∀ slot, destFrame bm slot = blank) ∧
      (smartSliceOutput bm).width = 576 ∧ (smartSliceOutput bm).height = 24 ∧
      (∀ x y, ((smartSliceOutput bm).pix x y).a = 0)) := by
  constructor
  · intro slot i hsi hget
    rw [List.get?_eq_getElem?] at hget
    simp [destFrame, hsi, hget]
  · intro hdet
    have hsort : sortedSprites bm = [] := by
      simp [sortedSprites, hdet, sortByLE]
    have hblank : ∀ slot, destFrame bm slot = blank := by
      intro slot
      cases hsi : destSourceIdx slot with
      | none => simp [destFrame, hsi]
      | some i => simp [destFrame, hsi, hsort]
    refine ⟨hblank, rfl, rfl, ?_⟩
    intro x y
    simp only [smartSliceOutput]
    by_cases hxy : x < 576 ∧ y < 24
    · rw [if_pos hxy, hblank (x / 24)]; rfl
    · rw [if_neg hxy]; rfl

/-- C5 witness: the fully transparent 4 by 4 bitmap yields no boxes, slot 0
is blank, slot 5 is blank through the missing-box fallback, and the output
pixel at (100, 10) is transparent. -/
theorem claim5_graceful_degradation_instance :
    destFrame bmClear 0 = blank ∧ destFrame bmClear 5 = blank ∧
    ((smartSliceOutput bmClear).pix 100 10).a = 0 := by
  obtain ⟨hall, -, -, hpix⟩ := (claim5_graceful_degradation bmClear).2 (by decide)
  exact ⟨hall 0,
    (claim5_graceful_degradation bmClear).1 5 6 (by decide) (by decide),
    hpix 100 10⟩

/-! ### Slot mapping -/

/-- C1: slots 0 to 3 take the first four sorted boxes, slots 4 to 9 take
the sorted boxes at positions 5 to 10, and no slot ever takes the box at
sorted position 4; at the frame level, a slot whose mapped source position
holds a box receives exactly that processed box. -/
theorem claim1_slot_mapping :
    (∀ s, s < 4 → destSourceIdx s = some s) ∧
    (∀ i, i < 6 → destSourceIdx (4 + i) = some (5 + i)) ∧
    (∀ s, s < 24 → destSourceIdx s ≠ some 4) ∧
    (∀ (bm : Bitmap) (s : Nat) (box : BoundingBox), s < 4 →
      (sortedSprites bm).get? s = some box →
      destFrame bm s = processSprite bm box) ∧
    (∀ (bm : Bitmap) (i : Nat) (box : BoundingBox), i < 6 →
      (sortedSprites bm).get? (5 + i) = some box →
      destFrame bm (4 + i) = processSprite bm box) := by
  refine ⟨by decide, by decide, by decide, ?_, ?_⟩
  · intro bm s box hs hget
    have h1 : destSourceIdx s = some s := by simp [destSourceIdx, hs]
    rw [List.get?_eq_getElem?] at hget
    simp [destFrame, h1, hget]
  · intro bm i box hi hget
    have h1 : destSourceIdx (4 + i) = some (5 + i) := by
      simp only [destSourceIdx]
      rw [if_neg (by omega), if_pos (by omega)]
      congr 1
      omega
    rw [List.get?_eq_getElem?] at hget
    simp [destFrame, h1, hget]

/-- C1 witness: slot 2 maps to sorted position 2, slot 7 maps to sorted
position 8, slot 12 does not map to position 4, and on the all-opaque test
bitmap slot 0 receives the single detected box processed. -/
theorem claim1_slot_mapping_instance :
    destSourceIdx 2 = some 2 ∧ destSourceIdx 7 = some 8 ∧
    destSourceIdx 12 ≠ some 4 ∧
    destFrame bmFull 0 = processSprite bmFull ⟨0, 0, 8, 8⟩ :=
  ⟨claim1_slot_mapping.1 2 (by decide),
   claim1_slot_mapping.2.1 3 (by decide),
   claim1_slot_mapping.2.2.1 12 (by decide),
   claim1_slot_mapping.2.2.2.1 bmFull 0 ⟨0, 0, 8, 8⟩ (by decide) (by decide)⟩

/-! ### Strip compositor invariants -/

theorem processSprite_dims (bm : Bitmap) (box : BoundingBox) :
    (processSprite bm box).width = 24 ∧ (processSprite bm box).height = 24 := by
  simp only [processSprite]
  split
  · exact ⟨rfl, rfl⟩
  · exact ⟨rfl, rfl⟩

theorem destFrame_dims (bm : Bitmap) (slot : Nat) :
    (destFrame bm slot).width = 24 ∧ (destFrame bm slot).height = 24 := by
  unfold destFrame
  split
  · split
    · exact processSprite_dims _ _
    · exact ⟨rfl, rfl⟩
  · exact ⟨rfl, rfl⟩

/-- C2: for every input the composited strip is exactly 576 by 24 (pixels
carrying an alpha channel), exactly 24 frames are placed, each frame is
exactly 24 by 24, the frame of slot i covers the output columns starting at
i * 24, and every pixel of slots 10 to 23 — both as frames and in the
output region x at least 240 — is fully transparent. -/
theorem claim2_strip_invariants (bm : Bitmap) :
    (smartSliceOutput bm).width = 576 ∧ (smartSliceOutput bm).height = 24 ∧
    (destFramesList bm).length = 24 ∧
    (∀ f ∈ destFramesList bm, f.width = 24 ∧ f.height = 24) ∧
    (∀ i u v, i < 24 → u < 24 → v < 24 →
      (smartSliceOutput bm).pix (i * 24 + u) v = (destFrame bm i).pix u v) ∧
    (∀ slot u v, 10 ≤ slot → ((destFrame bm slot).pix u v).a = 0) ∧
    (∀ x y, 240 ≤ x → x < 576 → y < 24 →
      ((smartSliceOutput bm).pix x y).a = 0) := by
  have htrans : ∀ slot u v, 10 ≤ slot → ((destFrame bm slot).pix u v).a = 0 := by
    intro slot u v hslot
    have hnone : destSourceIdx slot = none := by
      simp only [destSourceIdx]
      rw [if_neg (by omega), if_neg (by omega)]
    simp [destFrame, hnone, blank, RGBA.clear]
  refine ⟨rfl, rfl, by simp [destFramesList], ?_, ?_, htrans, ?_⟩
  · intro f hf
    rcases List.mem_map.mp hf with ⟨slot, -, hrfl⟩
    subst hrfl
    exact destFrame_dims bm slot
  · intro i u v hi hu hv
    have hx : i * 24 + u < 576 := by omega
    have hdiv : (i * 24 + u) / 24 = i := by omega
    have hmod : (i * 24 + u) % 24 = u := by omega
    simp only [smartSliceOutput]
    rw [if_pos ⟨hx, hv⟩, hdiv, hmod]
  · intro x y hx1 hx2 hy
    simp only [smartSliceOutput]
    rw [if_pos ⟨hx2, hy⟩]
    exact htrans (x / 24) (x % 24) y (by omega)

/-- C2 witness: on the fully transparent test bitmap, the pixel at
(2 * 24 + 3, 5) equals pixel (3, 5) of frame 2, frame 15 is transparent at
(1, 2), output pixel (250, 10) is transparent, and the frame of slot 0 is
24 wide. -/
theorem claim2_strip_invariants_instance :
    (smartSliceOutput bmClear).pix (2 * 24 + 3) 5 = (destFrame bmClear 2).pix 3 5 ∧
    ((destFrame bmClear 15).pix 1 2).a = 0 ∧
    ((smartSliceOutput bmClear).pix 250 10).a = 0 ∧
    (destFrame bmClear 0).width = 24 := by
  obtain ⟨-, -, -, hdims, hplace, htrans, hout⟩ := claim2_strip_invariants bmClear
  exact ⟨hplace 2 3 5 (by decide) (by decide) (by decide),
    htrans 15 1 2 (by decide),
    hout 250 10 (by decide) (by decide) (by decide),
    (hdims (destFrame bmClear 0)
      (List.mem_map_of_mem (destFrame bmClear) (by decide))).1⟩

/-! ### Retry loop of the request handler -/

/-- C7: the handler makes at most three calls to the external generator;
when the first two attempts are fully opaque (no pixel with alpha below
255) the request still does not fail: a final third attempt is made and its
bitmap is used for the downstream pipeline without any transparency
check. -/
theorem claim7_retry_fallback (gen : Nat → Bitmap) :
    (∃ i, i < 3 ∧ retryWithFallback gen = gen i) ∧
    attemptsMade gen ≤ 3 ∧
    (hasAnyTransparency (gen 0) = false → hasAnyTransparency (gen 1) = false →
      retryWithFallback gen = gen 2 ∧ attemptsMade gen = 3) := by
  refine ⟨?_, ?_, ?_⟩
  · by_cases h0 : hasAnyTransparency (gen 0)
    · exact ⟨0, by omega, by simp [retryWithFallback, h0]⟩
    · by_cases h1 : hasAnyTransparency (gen 1)
      · exact ⟨1, by omega, by simp [retryWithFallback, h0, h1]⟩
      · exact ⟨2, by omega, by simp [retryWithFallback, h0, h1]⟩
  · by_cases h0 : hasAnyTransparency (gen 0) <;>
      by_cases h1 : hasAnyTransparency (gen 1) <;>
      simp [attemptsMade, h0, h1]
  · intro h0 h1
    constructor
    · simp [retryWithFallback, h0, h1]
    · simp [attemptsMade, h0, h1]

/-- C7 witness: when every attempt returns the all-opaque test bitmap, the
handler uses the third attempt anyway after three calls. -/
theorem claim7_retry_fallback_instance :
    retryWithFallback (fun _ => bmFull) = bmFull ∧
    attemptsMade (fun _ => bmFull) = 3 :=
  (claim7_retry_fallback (fun _ => bmFull)).2.2 (by decide) (by decide)

/-! ### Missing prompt check -/

/-- C8: a request whose prompt is absent or empty gets HTTP status 400 with
the error body "Missing prompt", and zero calls are made to the external
generation service. -/
theorem claim8_missing_prompt (prompt mode : Option String) (gen : Nat → Bitmap)
    (h : prompt = none ∨ prompt = some "") :
    (POSThandler prompt mode gen).1.status = 400 ∧
    (POSThandler prompt mode gen).1.error = some "Missing prompt" ∧
    (POSThandler prompt mode gen).2 = 0 := by
  have hm : promptMissing prompt = true := by
    rcases h with h | h <;> subst h <;> decide
  simp [POSThandler, hm]

/-- C8 witness: the empty prompt is rejected with status 400, the error
body "Missing prompt", and no generator call. -/
theorem claim8_missing_prompt_instance :
    (POSThandler (some "") none (fun _ => bmClear)).1.status = 400 ∧
    (POSThandler (some "") none (fun _ => bmClear)).1.error =
      some "Missing prompt" ∧
    (POSThandler (some "") none (fun _ => bmClear)).2 = 0 :=
  claim8_missing_prompt (some "") none (fun _ => bmClear) (Or.inr rfl)

/-! ### Atlas metadata -/

/-- C9: for every character name the atlas has exactly 24 frame entries;
the entry at position col is keyed "col_name" and its rectangle is
`{x: col * 24, y: 0, w: 24, h: 24}` with 24 by 24 source sizes; the idle
animation lists frames 0 to 3 and the walk animation frames 4 to 9; in
particular the entry keyed "0_mort" has the rectangle
`{x: 0, y: 0, w: 24, h: 24}`. -/
theorem claim9_atlas_metadata (name : String) :
    (atlasDataGenerator name).frames.length = 24 ∧
    (∀ col, col < 24 → (atlasDataGenerator name).frames.get? col =
      some (frameKey col name,
        { frame := { x := col * 24, y := 0, w := 24, h := 24 },
          sourceSize := (24, 24),
          spriteSourceSize := { x := 0, y := 0, w := 24, h := 24 } })) ∧
    (atlasDataGenerator name).animIdle =
      [frameKey 0 name, frameKey 1 name, frameKey 2 name, frameKey 3 name] ∧
    (atlasDataGenerator name).animWalk =
      [frameKey 4 name, frameKey 5 name, frameKey 6 name, frameKey 7 name,
       frameKey 8 name, frameKey 9 name] ∧
    ((atlasDataGenerator "mort").frames.lookup "0_mort").map
      (fun e => e.frame) = some { x := 0, y := 0, w := 24, h := 24 } := by
  refine ⟨by simp [atlasDataGenerator], ?_, rfl, rfl, by decide⟩
  intro col hcol
  simp [atlasDataGenerator, List.get?_eq_getElem?, List.getElem?_map,
    List.getElem?_range hcol]

/-- C9 witness: for the name "mort", the atlas has 24 entries and entry 0
is keyed "0_mort" with the rectangle at the origin. -/
theorem claim9_atlas_metadata_instance :
    (atlasDataGenerator "mort").frames.length = 24 ∧
    (atlasDataGenerator "mort").frames.get? 0 =
      some (frameKey 0 "mort",
        { frame := { x := 0, y := 0, w := 24, h := 24 },
          sourceSize := (24, 24),
          spriteSourceSize := { x := 0, y := 0, w := 24, h := 24 } }) :=
  ⟨(claim9_atlas_metadata "mort").1,
   (claim9_atlas_metadata "mort").2.1 0 (by decide)⟩

end SpriteLab
